import Mathlib

set_option linter.all false

/-!
Shallow embedding of the query-execution path of rust-postgres
(`tokio-postgres/src/query.rs`) and of the binary COPY codec whose
observable contract is exercised by `tokio-postgres-binary-copy/src/test.rs`.

Conventions of the embedding:
* backend responses are a `List Message` delivered in order; polling a
  `Responses` handle is taking the head of that list;
* Rust panics (`assert!`, `Option::unwrap`) are the `PanicOr.panic`
  constructor, recoverable `Result` errors are `Except`/`Error`;
* byte buffers are `List Nat` with each entry one byte value;
* opaque typed converters (`ToSql::to_sql_checked`) are functions stored in
  a `Param`, returning either a conversion error or an optional byte string
  (`none` models `IsNull::Yes`).
-/

/-- A PostgreSQL semantic type, identified by its oid (opaque to the core). -/
abbrev PgType := Nat

def INT4 : PgType := 23

def TEXT : PgType := 25

/-- Handle to a prepared statement: name plus declared parameter types and
result-column types. -/
structure Statement where
  name : String
  params : List PgType
  columns : List PgType
deriving DecidableEq

/-- A named server-side cursor bound to one `Statement`. -/
structure Portal where
  name : String
  statement : Statement
deriving DecidableEq

/-- The raw payload of one Data-Row message: per column either `none`
(SQL NULL) or the column's bytes. -/
structure DataRowBody where
  fields : List (Option (List Nat))
deriving DecidableEq

/-- The backend messages the query path inspects; `other` stands for the
rest of the PostgreSQL backend message set.  A Command-Complete body
carries `none` when its tag bytes fail to parse as a string. -/
inductive Message where
  | bindComplete
  | parseComplete
  | dataRow (body : DataRowBody)
  | commandComplete (tag : Option String)
  | emptyQueryResponse
  | portalSuspended
  | errorResponse (fields : List (Nat × String))
  | readyForQuery
  | other (code : Nat)
deriving DecidableEq

/-- The error type of the client (`crate::Error`), restricted to the
constructors the embedded code can produce. -/
inductive Error where
  | closed
  | parse
  | unexpectedMessage
  | db (fields : List (Nat × String))
  | toSql (e : String) (idx : Nat)
  | encode
deriving DecidableEq

/-- Outcome of Rust code that may panic: either a panic with its message or
a normal value. -/
inductive PanicOr (α : Type) where
  | panic (msg : String)
  | value (v : α)
deriving DecidableEq

/-- An opaque typed converter for one parameter (`&dyn ToSql`):
`toSqlChecked ty` is `to_sql_checked(ty, buf)`, returning the bytes it
appended (`none` = `IsNull::Yes`) or the conversion error. -/
structure Param where
  toSqlChecked : PgType → Except String (Option (List Nat))

/-- A decoded row: the raw Data-Row body with a back-reference to the
originating statement. -/
structure Row where
  statement : Statement
  body : DataRowBody
deriving DecidableEq

/-- Modelled from the spec: `Row::new` (row.rs is not under src/).  Row
decoding can fail on a column-count mismatch against the statement's
result-column list; success keeps the statement back-reference. -/
def Row.new (stmt : Statement) (body : DataRowBody) : Except Error Row :=
  if body.fields.length = stmt.columns.length then
    Except.ok { statement := stmt, body := body }
  else
    Except.error Error.parse

/-- The Bind message payload produced by `encode_bind`: portal name,
statement name, the parameter-format choice (`some 1` = one format code 1
applying to every parameter), the encoded parameter values, and the
result-format choice. -/
structure BindMsg where
  portal : String
  stmtName : String
  paramFormats : Option Nat
  fields : List (Option (List Nat))
  resultFormats : Option Nat
deriving DecidableEq

/-- The frontend messages the embedded code writes into a request buffer. -/
inductive FrontendMsg where
  | bind (m : BindMsg)
  | execute (portal : String) (maxRows : Int)
  | sync
deriving DecidableEq

/-- A stream of table rows: the originating statement plus the responses
not yet consumed. -/
structure RowStream where
  statement : Statement
  responses : List Message
deriving DecidableEq

/-- Whether a string contains a NUL character, which no frontend message
name field can represent (C-string framing). -/
def containsNul (s : String) : Bool :=
  s.data.contains (Char.ofNat 0)

/-- Whether an encoded field fits the 4-byte signed length prefix of the
wire format. -/
def fieldLenOk : Option (List Nat) → Bool
  | none => true
  | some bs => bs.length < 2 ^ 31

/-- The serializing walk of `frontend::bind` over the enumerated
(parameter, declared type) pairs, as driven by the closure in
`encode_bind`: the first conversion failure is reported with its index and
message (the closure stores the index in `error_idx`); a value whose
length cannot be written as an i32 length prefix is a serialization
failure, reported with `none` in place of a conversion message. -/
def bindFields : Nat → List (Param × PgType) →
    Except (Nat × Option String) (List (Option (List Nat)))
  | _, [] => Except.ok []
  | idx, (p, ty) :: rest =>
    match p.toSqlChecked ty with
    | Except.error e => Except.error (idx, some e)
    | Except.ok v =>
      if fieldLenOk v then
        (bindFields (idx + 1) rest).map (fun vs => v :: vs)
      else
        Except.error (idx, none)

/-- `encode_bind`: asserts the parameter count matches the statement's
declared count (panic on mismatch), then builds the Bind message through
`frontend::bind` with format code 1 (binary) for parameters and results.
A conversion failure at index `i` becomes `Error.toSql e i`; a
serialization failure (NUL in a name, counts or lengths that do not fit
their wire fields) becomes the un-indexed `Error.encode`. -/
def encode_bind (stmt : Statement) (params : List Param) (portal : String) :
    PanicOr (Except Error BindMsg) :=
  if stmt.params.length = params.length then
    PanicOr.value (
      if containsNul portal || containsNul stmt.name ||
          decide (2 ^ 15 ≤ params.length) then
        Except.error Error.encode
      else
        match bindFields 0 (params.zip stmt.params) with
        | Except.ok fields =>
          Except.ok
            { portal := portal, stmtName := stmt.name,
              paramFormats := some 1, fields := fields,
              resultFormats := some 1 }
        | Except.error (idx, some e) => Except.error (Error.toSql e idx)
        | Except.error (_, none) => Except.error Error.encode)
  else
    PanicOr.panic
      ("expected " ++ toString stmt.params.length ++ " parameters but got "
        ++ toString params.length)

/-- `encode`: Bind + unlimited Execute (portal "", max_rows 0) + Sync. -/
def encode (stmt : Statement) (params : List Param) :
    PanicOr (Except Error (List FrontendMsg)) :=
  match encode_bind stmt params ("") with
  | PanicOr.panic m => PanicOr.panic m
  | PanicOr.value (Except.error e) => PanicOr.value (Except.error e)
  | PanicOr.value (Except.ok m) =>
    PanicOr.value (Except.ok
      [FrontendMsg.bind m, FrontendMsg.execute ("") 0, FrontendMsg.sync])

/-- `start`: submit the buffer, then require the first response message to
be Bind-Complete; any other message is an unexpected-message error, an
exhausted channel is a closed-connection error. -/
def start (responses : List Message) : Except Error (List Message) :=
  match responses with
  | [] => Except.error Error.closed
  | Message.bindComplete :: rest => Except.ok rest
  | _ :: _ => Except.error Error.unexpectedMessage

/-- `query`: encode, submit, validate the Bind-Complete handshake, and
return a `RowStream` over the remaining responses. -/
def query (stmt : Statement) (params : List Param)
    (responses : List Message) : PanicOr (Except Error RowStream) :=
  match encode stmt params with
  | PanicOr.panic m => PanicOr.panic m
  | PanicOr.value (Except.error e) => PanicOr.value (Except.error e)
  | PanicOr.value (Except.ok _) =>
    match start responses with
    | Except.error e => PanicOr.value (Except.error e)
    | Except.ok rest => PanicOr.value (Except.ok
        { statement := stmt, responses := rest })

/-- Splitting a character list on the space character, keeping empty
segments, as Rust's `str::split(' ')` does: `"a  b"` gives
`["a", "", "b"]` and `""` gives `[""]`. -/
def splitSp : List Char → List (List Char)
  | [] => [[]]
  | c :: rest =>
    if c = ' ' then
      [] :: splitSp rest
    else
      match splitSp rest with
      | [] => [[c]]
      | t :: ts => (c :: t) :: ts

/-- `tag.rsplit(' ').next()`: the rsplit iterator yields the segments of
`split(' ')` in reverse order, so its first element is the head of the
reversed segment list. -/
def rsplitNext (tag : String) : Option (List Char) :=
  ((splitSp tag.data).reverse).head?

/-- `str::parse::<u64>`: an optional leading plus sign, then one or more
ASCII digits whose value fits in 64 bits; anything else fails. -/
def digitsVal (cs : List Char) : Nat :=
  cs.foldl (fun acc c => acc * 10 + (c.toNat - 48)) 0

def parseU64 (cs : List Char) : Option Nat :=
  let ds := match cs with
    | '+' :: rest => rest
    | _ => cs
  if ds.isEmpty then none
  else if ds.all Char.isDigit then
    if digitsVal ds < 2 ^ 64 then some (digitsVal ds) else none
  else none

/-- The row count `execute` extracts from one Command-Complete tag:
last space-separated token parsed as u64, defaulting to 0; the `unwrap`
after `rsplit(' ').next()` is a panic if the iterator were empty. -/
def tagRowCount (tag : String) : PanicOr Nat :=
  match rsplitNext tag with
  | none => PanicOr.panic ("called Option::unwrap on a None value")
  | some tok => PanicOr.value ((parseU64 tok).getD 0)

/-- The response-draining loop of `execute`: skip Data-Row messages, stop
at Command-Complete (parsing its tag for the row count) or
Empty-Query-Response (count 0); any other message is an
unexpected-message error, an exhausted channel a closed error. -/
def executeLoop : List Message → PanicOr (Except Error Nat)
  | [] => PanicOr.value (Except.error Error.closed)
  | Message.dataRow _ :: rest => executeLoop rest
  | Message.commandComplete none :: _ =>
    PanicOr.value (Except.error Error.parse)
  | Message.commandComplete (some tag) :: _ =>
    (match tagRowCount tag with
     | PanicOr.panic m => PanicOr.panic m
     | PanicOr.value n => PanicOr.value (Except.ok n))
  | Message.emptyQueryResponse :: _ => PanicOr.value (Except.ok 0)
  | _ :: _ => PanicOr.value (Except.error Error.unexpectedMessage)

/-- `execute`: encode, submit, validate the Bind-Complete handshake, then
drain the responses for the affected-row count. -/
def execute (stmt : Statement) (params : List Param)
    (responses : List Message) : PanicOr (Except Error Nat) :=
  match encode stmt params with
  | PanicOr.panic m => PanicOr.panic m
  | PanicOr.value (Except.error e) => PanicOr.value (Except.error e)
  | PanicOr.value (Except.ok _) =>
    match start responses with
    | Except.error e => PanicOr.value (Except.error e)
    | Except.ok rest => executeLoop rest

/-- `RowStream::poll_next` on the next available response message: the
yielded item (`none` is end-of-sequence) and the stream afterwards. -/
def RowStream.poll (rs : RowStream) :
    Option (Except Error Row) × RowStream :=
  match rs.responses with
  | [] => (some (Except.error Error.closed), rs)
  | msg :: rest =>
    let next : RowStream := { statement := rs.statement, responses := rest }
    match msg with
    | Message.dataRow body =>
      (match Row.new rs.statement body with
       | Except.ok r => (some (Except.ok r), next)
       | Except.error e => (some (Except.error e), next))
    | Message.emptyQueryResponse => (none, next)
    | Message.commandComplete _ => (none, next)
    | Message.portalSuspended => (none, next)
    | Message.errorResponse fields =>
      (some (Except.error (Error.db fields)), next)
    | _ => (some (Except.error Error.unexpectedMessage), next)

/-- The abstract stream state of the spec's Row Stream state machine. -/
inductive StreamState where
  | active
  | done
deriving DecidableEq

/-- The state reached after yielding an item: a successfully decoded row
leaves the stream Active (it may yield more rows); end-of-sequence and
every error item are terminal. -/
def itemState : Option (Except Error Row) → StreamState
  | some (Except.ok _) => StreamState.active
  | some (Except.error _) => StreamState.done
  | none => StreamState.done

/-- Modelled from the spec: `frontend::execute` of postgres-protocol (not
under src/) writes an Execute message with the portal name as a C string
and the max-rows i32; it fails only when the name cannot be framed. -/
def frontendExecuteMsg (portal : String) (maxRows : Int) :
    Except Error FrontendMsg :=
  if containsNul portal then Except.error Error.encode
  else Except.ok (FrontendMsg.execute portal maxRows)

/-- The observable result of submitting a request: the request buffer that
was sent and the row stream over its responses. -/
structure Submission where
  buf : List FrontendMsg
  stream : RowStream
deriving DecidableEq

/-- `query_portal`: build a buffer of Execute (portal name, explicit row
limit) followed by Sync, submit it, and return a row stream over all the
responses, bound to the portal's statement.  No Bind message is written
and no response message is consumed before returning. -/
def query_portal (portal : Portal) (maxRows : Int)
    (responses : List Message) : Except Error Submission :=
  match frontendExecuteMsg portal.name maxRows with
  | Except.error e => Except.error e
  | Except.ok em =>
    Except.ok
      { buf := [em, FrontendMsg.sync],
        stream := { statement := portal.statement, responses := responses } }

/-- The last space-separated token of a tag, characterized directly: the
longest space-free suffix. -/
def lastSpaceToken (tag : String) : List Char :=
  ((tag.data.reverse.takeWhile (fun c => c != ' ')).reverse)

/-- One COPY field value: `none` is SQL NULL (an absent value, distinct
from an empty byte string), `some bs` the converter's encoded bytes. -/
abbrev CopyValue := Option (List Nat)

/-- Big-endian 2-byte encoding of a 16-bit value. -/
def be16 (n : Nat) : List Nat :=
  [n / 2 ^ 8 % 2 ^ 8, n % 2 ^ 8]

/-- Big-endian 4-byte encoding of a 32-bit value. -/
def be32 (n : Nat) : List Nat :=
  [n / 2 ^ 24 % 2 ^ 8, n / 2 ^ 16 % 2 ^ 8, n / 2 ^ 8 % 2 ^ 8, n % 2 ^ 8]

/-- The fixed 19-byte COPY BINARY header: magic `PGCOPY\n\xFF\r\n\x00`,
4-byte flags 0, 4-byte header-extension length 0. -/
def copyHeader : List Nat :=
  [80, 71, 67, 79, 80, 89, 10, 255, 13, 10, 0,
   0, 0, 0, 0, 0, 0, 0, 0]

/-- The 2-byte stream terminator: field count -1 as i16. -/
def copyTrailer : List Nat :=
  [255, 255]

/-- Modelled from the spec: one encoded COPY field — the NULL sentinel
(-1 as i32) for an absent value, otherwise a 4-byte length prefix followed
by the content bytes. -/
def encodeCopyField : CopyValue → List Nat
  | none => [255, 255, 255, 255]
  | some bs => be32 bs.length ++ bs

/-- Modelled from the spec: one encoded tuple frame — 2-byte field count,
then each field. -/
def encodeCopyTuple (row : List CopyValue) : List Nat :=
  be16 row.length ++ (row.map encodeCopyField).flatten

/-- Modelled from the spec: the Binary Copy Writer
(`BinaryCopyInStream`, absent from src/; spec sections on the Binary Copy
Writer and the COPY BINARY wire format).  Emits the header once, then one
tuple frame per row — asserting each row's field count equals the schema
length (fatal on mismatch) — and the terminator after the last row.  The
chunked yielding of the writer concatenates to this byte sequence. -/
def binaryCopyWrite (schema : List PgType)
    (rows : List (List CopyValue)) : PanicOr (List Nat) :=
  if rows.all (fun r => r.length = schema.length) then
    PanicOr.value
      (copyHeader ++ (rows.map encodeCopyTuple).flatten ++ copyTrailer)
  else
    PanicOr.panic ("expected a row of the schema's field count")

/-- Read a big-endian 2-byte value off the front of a byte stream. -/
def read16 : List Nat → Option (Nat × List Nat)
  | b0 :: b1 :: rest => some (b0 * 2 ^ 8 + b1, rest)
  | _ => none

/-- Read a big-endian 4-byte value off the front of a byte stream. -/
def read32 : List Nat → Option (Nat × List Nat)
  | b0 :: b1 :: b2 :: b3 :: rest =>
    some (b0 * 2 ^ 24 + b1 * 2 ^ 16 + b2 * 2 ^ 8 + b3, rest)
  | _ => none

/-- Modelled from the spec: decode one COPY field — the i32 -1 sentinel is
NULL, otherwise the declared number of content bytes is extracted. -/
def readCopyField (bs : List Nat) : Option (CopyValue × List Nat) :=
  match read32 bs with
  | none => none
  | some (len, rest) =>
    if len = 2 ^ 32 - 1 then some (none, rest)
    else if rest.length < len then none
    else some (some (rest.take len), rest.drop len)

/-- Modelled from the spec: decode `n` fields of one tuple frame. -/
def readCopyFields : Nat → List Nat → Option (List CopyValue × List Nat)
  | 0, bs => some ([], bs)
  | n + 1, bs =>
    match readCopyField bs with
    | none => none
    | some (v, rest) =>
      match readCopyFields n rest with
      | none => none
      | some (vs, rest2) => some (v :: vs, rest2)

/-- Modelled from the spec: decode tuple frames until the 2-byte -1
terminator; a frame whose field count differs from the schema length, or
input that ends before a complete frame, is a decode failure.  `fuel`
bounds the number of frames (each frame consumes at least two bytes, so
the byte count is always enough fuel). -/
def readCopyTuples (fuel : Nat) (schemaLen : Nat) (bs : List Nat) :
    Option (List (List CopyValue)) :=
  match fuel with
  | 0 => none
  | fuel + 1 =>
    match read16 bs with
    | none => none
    | some (cnt, rest) =>
      if cnt = 2 ^ 16 - 1 then some []
      else if cnt = schemaLen then
        match readCopyFields cnt rest with
        | none => none
        | some (row, rest2) =>
          match readCopyTuples fuel schemaLen rest2 with
          | none => none
          | some rows => some (row :: rows)
      else none

/-- Modelled from the spec: the Binary Copy Reader
(`BinaryCopyOutStream`, absent from src/).  Checks the fixed header
(magic, flags 0, extension length 0 — anything else is a fatal decode
error at the first chunk), then decodes tuple frames until the
terminator.  Chunk reassembly concatenates the inbound chunks, so the
reader is applied to the full byte sequence. -/
def binaryCopyRead (schema : List PgType) (bs : List Nat) :
    Option (List (List CopyValue)) :=
  if bs.take 19 = copyHeader then
    readCopyTuples bs.length schema.length (bs.drop 19)
  else none

/-- Whether a message is a Data-Row. -/
def isDataRow : Message → Bool
  | Message.dataRow _ => true
  | _ => false

/-- Whether a message is one of the three end-of-sequence terminals of the
row stream: Empty-Query-Response, Command-Complete, Portal-Suspended. -/
def isEndMsg : Message → Bool
  | Message.emptyQueryResponse => true
  | Message.commandComplete _ => true
  | Message.portalSuspended => true
  | _ => false

/-- Whether a message is an Error-Response. -/
def isErrMsg : Message → Bool
  | Message.errorResponse _ => true
  | _ => false

/-- Whether a (parameter, declared type) pair converts successfully into a
value whose length fits its wire field. -/
def convOk (p : Param) (ty : PgType) : Bool :=
  match p.toSqlChecked ty with
  | Except.ok v => fieldLenOk v
  | Except.error _ => false

/-- A converter that encodes to the four bytes of int4 1. -/
def pOk : Param :=
  { toSqlChecked := fun _ => Except.ok (some [0, 0, 0, 1]) }

/-- A converter that yields SQL NULL. -/
def pNull : Param :=
  { toSqlChecked := fun _ => Except.ok none }

/-- A converter that always fails with a conversion error. -/
def pErr : Param :=
  { toSqlChecked := fun _ => Except.error ("out of range") }

/-- A converter whose encoding is too long for a 4-byte length prefix. -/
def pBig : Param :=
  { toSqlChecked := fun _ => Except.ok (some (List.replicate (2 ^ 31) 0)) }

deriving instance DecidableEq for Except

/-! ## Theorems -/

/-- C1: For every backend message received by a RowStream poll: a Data-Row
message yields one decoded Row and the stream stays able to yield more
rows; Empty-Query-Response, Command-Complete or Portal-Suspended yields
end-of-sequence and the stream is Done; Error-Response yields a single
terminal database error and the stream is Done; any other message yields a
single terminal unexpected-message protocol error and the stream is
Done. -/
theorem rowStream_poll_transitions (stmt : Statement) (rest : List Message) :
    (∀ body r, Row.new stmt body = Except.ok r →
      RowStream.poll ⟨stmt, Message.dataRow body :: rest⟩
          = (some (Except.ok r), ⟨stmt, rest⟩) ∧
        itemState (some (Except.ok r)) = StreamState.active) ∧
    (∀ m, isEndMsg m = true →
      RowStream.poll ⟨stmt, m :: rest⟩ = (none, ⟨stmt, rest⟩) ∧
        itemState (none : Option (Except Error Row)) = StreamState.done) ∧
    (∀ flds,
      RowStream.poll ⟨stmt, Message.errorResponse flds :: rest⟩
          = (some (Except.error (Error.db flds)), ⟨stmt, rest⟩) ∧
        itemState (some (Except.error (Error.db flds))) = StreamState.done) ∧
    (∀ m, isDataRow m = false → isEndMsg m = false → isErrMsg m = false →
      RowStream.poll ⟨stmt, m :: rest⟩
          = (some (Except.error Error.unexpectedMessage), ⟨stmt, rest⟩) ∧
        itemState (some (Except.error Error.unexpectedMessage))
          = StreamState.done) := by
  refine ⟨?_, ?_, ?_, ?_⟩
  · intro body r h
    exact ⟨by simp [RowStream.poll, h], rfl⟩
  · intro m hm
    cases m <;> simp_all [isEndMsg, RowStream.poll, itemState]
  · intro flds
    exact ⟨by simp [RowStream.poll], rfl⟩
  · intro m h1 h2 h3
    cases m <;>
      simp_all [isDataRow, isEndMsg, isErrMsg, RowStream.poll, itemState]

theorem rowStream_poll_transitions_witness :
    (Row.new ⟨("s"), [], [INT4]⟩ ⟨[some [0, 0, 0, 7]]⟩
        = Except.ok ⟨⟨("s"), [], [INT4]⟩, ⟨[some [0, 0, 0, 7]]⟩⟩) ∧
    (RowStream.poll
        ⟨⟨("s"), [], [INT4]⟩, [Message.dataRow ⟨[some [0, 0, 0, 7]]⟩]⟩
        = (some (Except.ok ⟨⟨("s"), [], [INT4]⟩, ⟨[some [0, 0, 0, 7]]⟩⟩),
           ⟨⟨("s"), [], [INT4]⟩, []⟩) ∧
      itemState (some (Except.ok
          (⟨⟨("s"), [], [INT4]⟩, ⟨[some [0, 0, 0, 7]]⟩⟩ : Row)))
        = StreamState.active) ∧
    (isEndMsg Message.portalSuspended = true) ∧
    (RowStream.poll ⟨⟨("s"), [], [INT4]⟩, [Message.portalSuspended]⟩
        = (none, ⟨⟨("s"), [], [INT4]⟩, []⟩) ∧
      itemState (none : Option (Except Error Row)) = StreamState.done) :=
  ⟨by decide,
   (rowStream_poll_transitions ⟨("s"), [], [INT4]⟩ []).1 _ _ (by decide),
   by decide,
   (rowStream_poll_transitions ⟨("s"), [], [INT4]⟩ []).2.1 _ (by decide)⟩

/-- C3: For every query (and execute) submission, a first response message
other than Bind-Complete fails the operation immediately with an
unexpected-message error and no row stream (or row count) is produced; a
Bind-Complete first message makes `query` return a row stream over the
remaining responses. -/
theorem query_bind_complete_gate :
    (∀ rest, start (Message.bindComplete :: rest) = Except.ok rest) ∧
    (∀ m rest, m ≠ Message.bindComplete →
       start (m :: rest) = Except.error Error.unexpectedMessage) ∧
    (∀ stmt params buf m rest,
       encode stmt params = PanicOr.value (Except.ok buf) →
       m ≠ Message.bindComplete →
       query stmt params (m :: rest)
           = PanicOr.value (Except.error Error.unexpectedMessage) ∧
       execute stmt params (m :: rest)
           = PanicOr.value (Except.error Error.unexpectedMessage)) ∧
    (∀ stmt params buf rest,
       encode stmt params = PanicOr.value (Except.ok buf) →
       query stmt params (Message.bindComplete :: rest)
           = PanicOr.value (Except.ok ⟨stmt, rest⟩)) := by
  have hstart : ∀ m rest, m ≠ Message.bindComplete →
      start (m :: rest) = Except.error Error.unexpectedMessage := by
    intro m rest h
    cases m <;> first | rfl | exact absurd rfl h
  refine ⟨fun rest => rfl, hstart, ?_, ?_⟩
  · intro stmt params buf m rest henc hm
    exact ⟨by simp [query, henc, hstart m rest hm],
           by simp [execute, henc, hstart m rest hm]⟩
  · intro stmt params buf rest henc
    simp [query, henc, start]

theorem query_bind_complete_gate_witness :
    (encode ⟨(""), [], []⟩ []
        = PanicOr.value (Except.ok
            [FrontendMsg.bind ⟨(""), (""), some 1, [], some 1⟩,
             FrontendMsg.execute ("") 0, FrontendMsg.sync])) ∧
    (Message.readyForQuery ≠ Message.bindComplete) ∧
    (query ⟨(""), [], []⟩ [] [Message.readyForQuery]
        = PanicOr.value (Except.error Error.unexpectedMessage) ∧
     execute ⟨(""), [], []⟩ [] [Message.readyForQuery]
        = PanicOr.value (Except.error Error.unexpectedMessage)) ∧
    (query ⟨(""), [], []⟩ [] [Message.bindComplete]
        = PanicOr.value (Except.ok ⟨⟨(""), [], []⟩, []⟩)) :=
  ⟨by decide, by decide,
   query_bind_complete_gate.2.2.1 ⟨(""), [], []⟩ []
     [FrontendMsg.bind ⟨(""), (""), some 1, [], some 1⟩,
      FrontendMsg.execute ("") 0, FrontendMsg.sync]
     Message.readyForQuery [] (by decide) (by decide),
   query_bind_complete_gate.2.2.2 ⟨(""), [], []⟩ []
     [FrontendMsg.bind ⟨(""), (""), some 1, [], some 1⟩,
      FrontendMsg.execute ("") 0, FrontendMsg.sync]
     [] (by decide)⟩

/-- C4: The parameter encoder asserts that the supplied parameter count
equals the statement's declared parameter count: a mismatch is a fatal
panic, not a recoverable error, and under the equal-length precondition
the assertion branch is unreachable (the call returns a value). -/
theorem encode_bind_param_count_assert (stmt : Statement)
    (params : List Param) (portal : String) :
    (stmt.params.length ≠ params.length →
      ∃ msg, encode_bind stmt params portal = PanicOr.panic msg) ∧
    (stmt.params.length = params.length →
      ∃ r, encode_bind stmt params portal = PanicOr.value r) := by
  constructor
  · intro h
    simp only [encode_bind, if_neg h]
    exact ⟨_, rfl⟩
  · intro h
    simp only [encode_bind, if_pos h]
    exact ⟨_, rfl⟩

theorem encode_bind_param_count_assert_witness :
    ((⟨("s"), [INT4], []⟩ : Statement).params.length
        ≠ ([] : List Param).length ∧
      ∃ msg, encode_bind ⟨("s"), [INT4], []⟩ [] ("") = PanicOr.panic msg) ∧
    ((⟨("s"), [INT4], []⟩ : Statement).params.length = [pOk].length ∧
      ∃ r, encode_bind ⟨("s"), [INT4], []⟩ [pOk] ("") = PanicOr.value r) :=
  ⟨⟨by decide, (encode_bind_param_count_assert ⟨("s"), [INT4], []⟩ [] ("")).1
      (by decide)⟩,
   ⟨by decide, (encode_bind_param_count_assert ⟨("s"), [INT4], []⟩ [pOk]
      ("")).2 (by decide)⟩⟩

/-- C7: Every Bind message built by `encode_bind` requests binary format
(format code 1) for all parameters and all result columns, and the request
buffer built by `encode` (the only call path, used by query and execute)
carries exactly such a Bind message — no call path selects text format. -/
theorem encode_bind_binary_formats :
    (∀ stmt params portal m,
       encode_bind stmt params portal = PanicOr.value (Except.ok m) →
       m.paramFormats = some 1 ∧ m.resultFormats = some 1) ∧
    (∀ stmt params buf,
       encode stmt params = PanicOr.value (Except.ok buf) →
       ∃ bm, buf = [FrontendMsg.bind bm, FrontendMsg.execute ("") 0,
           FrontendMsg.sync]
         ∧ bm.paramFormats = some 1 ∧ bm.resultFormats = some 1) := by
  have h1 : ∀ stmt params portal m,
      encode_bind stmt params portal = PanicOr.value (Except.ok m) →
      m.paramFormats = some 1 ∧ m.resultFormats = some 1 := by
    intro stmt params portal m h
    unfold encode_bind at h
    split at h
    · simp only [PanicOr.value.injEq] at h
      split at h
      · exact absurd h (by simp)
      · split at h
        · injection h with h
          subst h
          exact ⟨rfl, rfl⟩
        · exact absurd h (by simp)
        · exact absurd h (by simp)
    · exact absurd h (by simp)
  refine ⟨h1, ?_⟩
  intro stmt params buf h
  unfold encode at h
  split at h
  · exact absurd h (by simp)
  · exact absurd h (by simp)
  · rename_i m heq
    injection h with h
    injection h with h
    subst h
    exact ⟨m, rfl, h1 stmt params ("") m heq⟩

theorem encode_bind_binary_formats_witness :
    (encode_bind ⟨("st"), [INT4], [TEXT]⟩ [pOk] ("")
        = PanicOr.value (Except.ok
            ⟨(""), ("st"), some 1, [some [0, 0, 0, 1]], some 1⟩)) ∧
    ((⟨(""), ("st"), some 1, [some [0, 0, 0, 1]], some 1⟩ :
        BindMsg).paramFormats = some 1 ∧
      (⟨(""), ("st"), some 1, [some [0, 0, 0, 1]], some 1⟩ :
        BindMsg).resultFormats = some 1) :=
  ⟨by decide,
   encode_bind_binary_formats.1 ⟨("st"), [INT4], [TEXT]⟩ [pOk] ("")
     ⟨(""), ("st"), some 1, [some [0, 0, 0, 1]], some 1⟩ (by decide)⟩

/-- C8: For every portal and row limit, `query_portal` builds a request
buffer of exactly an Execute message carrying the portal's name and the
given row limit followed by a Sync message — no Bind message — and
returns a row stream bound to the portal's statement. -/
theorem query_portal_request_shape (portal : Portal) (maxRows : Int)
    (msgs : List Message) (h : containsNul portal.name = false) :
    query_portal portal maxRows msgs
        = Except.ok ⟨[FrontendMsg.execute portal.name maxRows,
            FrontendMsg.sync], ⟨portal.statement, msgs⟩⟩ ∧
    ∀ bm, FrontendMsg.bind bm
        ∉ [FrontendMsg.execute portal.name maxRows, FrontendMsg.sync] := by
  constructor
  · simp [query_portal, frontendExecuteMsg, h]
  · intro bm
    simp

theorem query_portal_request_shape_witness :
    containsNul (("p") : String) = false ∧
    (query_portal ⟨("p"), ⟨("s"), [], [INT4]⟩⟩ 50 [Message.portalSuspended]
        = Except.ok ⟨[FrontendMsg.execute ("p") 50, FrontendMsg.sync],
            ⟨⟨("s"), [], [INT4]⟩, [Message.portalSuspended]⟩⟩ ∧
      ∀ bm, FrontendMsg.bind bm
          ∉ [FrontendMsg.execute ("p") 50, FrontendMsg.sync]) :=
  ⟨by decide,
   query_portal_request_shape ⟨("p"), ⟨("s"), [], [INT4]⟩⟩ 50
     [Message.portalSuspended] (by decide)⟩

/-- C9: `query_portal` consumes no backend message before returning: the
returned stream sees the full response list, so the very first response
message (for example a Portal-Suspended) is delivered on the stream's
first poll, and `query_portal` itself never fails with an
unexpected-message error at submission time. -/
theorem query_portal_no_message_consumed (portal : Portal) (maxRows : Int)
    (msgs : List Message) :
    (∀ s, query_portal portal maxRows msgs = Except.ok s →
       s.stream.responses = msgs) ∧
    query_portal portal maxRows msgs ≠ Except.error Error.unexpectedMessage ∧
    (∀ s rest, query_portal portal maxRows (Message.portalSuspended :: rest)
         = Except.ok s →
       (RowStream.poll s.stream).1 = none) := by
  refine ⟨?_, ?_, ?_⟩
  · intro s hs
    unfold query_portal frontendExecuteMsg at hs
    split at hs
    · exact absurd hs (by simp)
    · injection hs with hs
      subst hs
      rfl
  · unfold query_portal frontendExecuteMsg
    by_cases hn : containsNul portal.name = true <;> simp [hn]
  · intro s rest hs
    unfold query_portal frontendExecuteMsg at hs
    split at hs
    · exact absurd hs (by simp)
    · injection hs with hs
      subst hs
      rfl

theorem query_portal_no_message_consumed_witness :
    query_portal ⟨("p"), ⟨("s"), [], []⟩⟩ 1 [Message.portalSuspended]
        = Except.ok ⟨[FrontendMsg.execute ("p") 1, FrontendMsg.sync],
            ⟨⟨("s"), [], []⟩, [Message.portalSuspended]⟩⟩ ∧
    (RowStream.poll ⟨⟨("s"), [], []⟩, [Message.portalSuspended]⟩).1
        = none :=
  ⟨by decide,
   (query_portal_no_message_consumed ⟨("p"), ⟨("s"), [], []⟩⟩ 1
       [Message.portalSuspended]).2.2
     ⟨[FrontendMsg.execute ("p") 1, FrontendMsg.sync],
      ⟨⟨("s"), [], []⟩, [Message.portalSuspended]⟩⟩ [] (by decide)⟩

theorem splitSp_ne_nil (cs : List Char) : splitSp cs ≠ [] := by
  induction cs with
  | nil => simp [splitSp]
  | cons c rest ih =>
    simp only [splitSp]
    split
    · simp
    · split <;> simp

theorem takeWhile_len_eq {p : Char → Bool} {l : List Char}
    (h : (l.takeWhile p).length = l.length) : l.takeWhile p = l :=
  (List.takeWhile_prefix p).eq_of_length h

theorem takeWhile_concat_false {p : Char → Bool} {x : Char}
    (hx : p x = false) (l : List Char) :
    (l ++ [x]).takeWhile p = l.takeWhile p := by
  rw [List.takeWhile_append]
  split
  · rename_i h
    rw [takeWhile_len_eq h]
    simp [List.takeWhile_cons, hx]
  · rfl

theorem takeWhile_append_mem_false {p : Char → Bool} {l1 : List Char}
    (l2 : List Char) {a : Char} (ha : a ∈ l1) (hpa : p a = false) :
    (l1 ++ l2).takeWhile p = l1.takeWhile p := by
  rw [List.takeWhile_append]
  split
  · rename_i h
    have hall := List.takeWhile_eq_self_iff.mp (takeWhile_len_eq h)
    rw [hall a ha] at hpa
    exact absurd hpa (by simp)
  · rfl

theorem getLastD_congr {α : Type} (l : List α) (h : l ≠ []) (d1 d2 : α) :
    l.getLastD d1 = l.getLastD d2 := by
  cases l with
  | nil => exact absurd rfl h
  | cons a l => simp only [List.getLastD_cons]

/-- The last segment of a space split is the longest space-free suffix,
and the split has at least two segments exactly when a space occurs. -/
theorem splitSp_last (cs : List Char) :
    (splitSp cs).getLastD []
        = ((cs.reverse.takeWhile (fun c => c != ' ')).reverse) ∧
    (2 ≤ (splitSp cs).length ↔ (' ') ∈ cs) := by
  induction cs with
  | nil => exact ⟨rfl, by simp [splitSp]⟩
  | cons c rest ih =>
    obtain ⟨ihA, ihB⟩ := ih
    have hne := splitSp_ne_nil rest
    by_cases hc : c = ' '
    · subst hc
      have h1 : splitSp ((' ') :: rest) = [] :: splitSp rest := by
        simp [splitSp]
      constructor
      · rw [h1, List.getLastD_cons, ihA, List.reverse_cons,
            takeWhile_concat_false (by simp) rest.reverse]
      · rw [h1]
        have hp : 0 < (splitSp rest).length := List.length_pos.mpr hne
        simp only [List.length_cons, List.mem_cons]
        constructor
        · intro _
          simp
        · intro _
          omega
    · obtain ⟨t, ts, hts⟩ : ∃ t ts, splitSp rest = t :: ts := by
        cases h : splitSp rest with
        | nil => exact absurd h hne
        | cons t ts => exact ⟨t, ts, rfl⟩
      have h1 : splitSp (c :: rest) = (c :: t) :: ts := by
        simp [splitSp, hc, hts]
      have hmemc : (c != ' ') = true := bne_iff_ne.mpr hc
      by_cases hts0 : ts = []
      · subst hts0
        have hnosp : (' ') ∉ rest := by
          intro hmem
          have h2 := ihB.mpr hmem
          rw [hts] at h2
          simp at h2
        have hall : ∀ a ∈ rest.reverse ++ [c], (a != ' ') = true := by
          intro a hmem
          rcases List.mem_append.mp hmem with h | h
          · exact bne_iff_ne.mpr fun heq =>
              hnosp (heq ▸ List.mem_reverse.mp h)
          · simp at h
            exact h ▸ hmemc
        have hallr : ∀ a ∈ rest.reverse, (a != ' ') = true := by
          intro a hmem
          exact hall a (List.mem_append.mpr (Or.inl hmem))
        constructor
        · rw [h1, List.getLastD_cons, List.getLastD_nil, List.reverse_cons,
              List.takeWhile_eq_self_iff.mpr hall]
          have ht : t = rest := by
            have := ihA
            rw [hts, List.getLastD_cons, List.getLastD_nil,
                List.takeWhile_eq_self_iff.mpr hallr] at this
            simpa using this
          simp [ht]
        · rw [h1]
          simp only [List.length_cons, List.length_nil, List.mem_cons]
          constructor
          · intro h2
            omega
          · rintro (h2 | h2)
            · exact absurd h2.symm hc
            · exact absurd h2 hnosp
      · have hsp : (' ') ∈ rest := by
          apply ihB.mp
          rw [hts]
          simp only [List.length_cons]
          have : 0 < ts.length := List.length_pos.mpr hts0
          omega
        constructor
        · rw [h1, List.getLastD_cons, getLastD_congr ts hts0 (c :: t) t,
              ← List.getLastD_cons [] t ts, ← hts, ihA, List.reverse_cons,
              takeWhile_append_mem_false [c] (List.mem_reverse.mpr hsp)
                (by simp)]
        · rw [h1]
          simp only [List.length_cons, List.mem_cons]
          have h2 : 0 < ts.length := List.length_pos.mpr hts0
          constructor
          · intro _
            exact Or.inr hsp
          · intro _
            omega

/-- `rsplit(' ').next()` always yields the longest space-free suffix. -/
theorem rsplitNext_eq (tag : String) :
    rsplitNext tag = some (lastSpaceToken tag) := by
  unfold rsplitNext lastSpaceToken
  rw [List.head?_reverse]
  rw [← (splitSp_last tag.data).1]
  obtain ⟨x, hx⟩ : ∃ x, (splitSp tag.data).getLast? = some x := by
    cases h : (splitSp tag.data).getLast? with
    | none =>
      exact absurd (List.getLast?_eq_none.mp h) (splitSp_ne_nil tag.data)
    | some x => exact ⟨x, rfl⟩
  rw [hx, List.getLastD_eq_getLast?, hx]
  rfl

/-- C2: for every Command-Complete tag received by execute's drain loop
(after any number of Data-Row messages), the returned affected-row count
is the last whitespace-separated token of the tag parsed as an integer,
0 if that token does not parse; in particular tag "INSERT 0 5" yields 5
and a tag with no trailing number yields 0. -/
theorem execute_tag_row_count :
    (∀ pre tag rest, pre.all isDataRow = true →
       executeLoop (pre ++ Message.commandComplete (some tag) :: rest)
         = PanicOr.value (Except.ok
             ((parseU64 (lastSpaceToken tag)).getD 0))) ∧
    executeLoop [Message.commandComplete (some ("INSERT 0 5"))]
        = PanicOr.value (Except.ok 5) ∧
    executeLoop [Message.commandComplete (some ("CREATE TABLE"))]
        = PanicOr.value (Except.ok 0) := by
  have key : ∀ tag rest,
      executeLoop (Message.commandComplete (some tag) :: rest)
        = PanicOr.value (Except.ok
            ((parseU64 (lastSpaceToken tag)).getD 0)) := by
    intro tag rest
    simp [executeLoop, tagRowCount, rsplitNext_eq]
  refine ⟨?_, by decide, by decide⟩
  intro pre tag rest hpre
  induction pre with
  | nil => exact key tag rest
  | cons m pre ih =>
    rw [List.all_cons, Bool.and_eq_true] at hpre
    obtain ⟨h1, h2⟩ := hpre
    cases m <;> simp [isDataRow] at h1
    rw [List.cons_append]
    show executeLoop (Message.dataRow _ :: _) = _
    rw [show ∀ b l, executeLoop (Message.dataRow b :: l) = executeLoop l
        from fun b l => rfl]
    exact ih h2

theorem execute_tag_row_count_witness :
    ([Message.dataRow ⟨[]⟩].all isDataRow = true) ∧
    executeLoop ([Message.dataRow ⟨[]⟩]
        ++ Message.commandComplete (some ("INSERT 0 5")) :: [])
      = PanicOr.value (Except.ok
          ((parseU64 (lastSpaceToken ("INSERT 0 5"))).getD 0)) :=
  ⟨by decide,
   execute_tag_row_count.1 [Message.dataRow ⟨[]⟩] ("INSERT 0 5") []
     (by decide)⟩

/-- C10: the extraction of the final space-separated token is total — the
rsplit iterator always yields at least one (possibly empty) token, so the
unwrap cannot panic and the drain loop always returns a value; the empty
tag and any tag whose last token is not a valid integer produce 0 rather
than a failure. -/
theorem execute_tag_extraction_total :
    (∀ tag : String, ∃ tok, rsplitNext tag = some tok) ∧
    (∀ msgs : List Message, ∃ r, executeLoop msgs = PanicOr.value r) ∧
    (executeLoop [Message.commandComplete (some (""))]
        = PanicOr.value (Except.ok 0)) ∧
    (∀ tag, parseU64 (lastSpaceToken tag) = none →
       executeLoop [Message.commandComplete (some tag)]
         = PanicOr.value (Except.ok 0)) := by
  have htot : ∀ msgs : List Message, ∃ r, executeLoop msgs
      = PanicOr.value r := by
    intro msgs
    induction msgs with
    | nil => exact ⟨_, rfl⟩
    | cons m rest ih =>
      cases m with
      | bindComplete => exact ⟨_, rfl⟩
      | parseComplete => exact ⟨_, rfl⟩
      | dataRow b => exact ih
      | commandComplete t =>
        cases t with
        | none => exact ⟨_, rfl⟩
        | some tag =>
          refine ⟨Except.ok ((parseU64 (lastSpaceToken tag)).getD 0), ?_⟩
          simp [executeLoop, tagRowCount, rsplitNext_eq]
      | emptyQueryResponse => exact ⟨_, rfl⟩
      | portalSuspended => exact ⟨_, rfl⟩
      | errorResponse flds => exact ⟨_, rfl⟩
      | readyForQuery => exact ⟨_, rfl⟩
      | other code => exact ⟨_, rfl⟩
  refine ⟨fun tag => ⟨_, rsplitNext_eq tag⟩, htot, by decide, ?_⟩
  intro tag h
  simp [executeLoop, tagRowCount, rsplitNext_eq, h]

theorem execute_tag_extraction_total_witness :
    parseU64 (lastSpaceToken ("CREATE TABLE")) = none ∧
    executeLoop [Message.commandComplete (some ("CREATE TABLE"))]
        = PanicOr.value (Except.ok 0) :=
  ⟨by decide,
   execute_tag_extraction_total.2.2.2 ("CREATE TABLE") (by decide)⟩

theorem bindFields_append_error (pre : List (Param × PgType)) (k : Nat)
    (rest : List (Param × PgType)) (i : Nat) (msg : Option String)
    (hpre : (pre.all fun q => convOk q.1 q.2) = true)
    (h : bindFields (k + pre.length) rest = Except.error (i, msg)) :
    bindFields k (pre ++ rest) = Except.error (i, msg) := by
  induction pre generalizing k with
  | nil => simpa using h
  | cons q pre ih =>
    rw [List.all_cons, Bool.and_eq_true] at hpre
    obtain ⟨h1, h2⟩ := hpre
    obtain ⟨p, ty⟩ := q
    unfold convOk at h1
    cases hc : p.toSqlChecked ty with
    | error e =>
      rw [hc] at h1
      simp at h1
    | ok v =>
      rw [hc] at h1
      dsimp only at h1
      rw [List.cons_append]
      rw [show bindFields k ((p, ty) :: (pre ++ rest))
          = (match p.toSqlChecked ty with
             | Except.error e => Except.error (k, some e)
             | Except.ok v =>
               if fieldLenOk v then
                 (bindFields (k + 1) (pre ++ rest)).map (fun vs => v :: vs)
               else
                 Except.error (k, none)) from rfl]
      rw [hc]
      dsimp only
      rw [if_pos h1]
      have h3 : bindFields (k + 1 + pre.length) rest
          = Except.error (i, msg) := by
        have heq : k + 1 + pre.length = k + (pre.length + 1) := by omega
        rw [heq]
        exact h
      rw [ih (k + 1) h2 h3]
      rfl

/-- C5: when encoding a parameter list, a typed-converter failure at index
`i` (all earlier parameters converting cleanly) produces an error that
carries the offending index `i` and wraps the converter's error text,
while a serialization failure (a value too long for its length prefix)
produces the lower-level encoding error that carries no parameter
index. -/
theorem encode_bind_error_taxonomy :
    (∀ stmt params portal preZ p ty postZ e,
       params.zip stmt.params = preZ ++ (p, ty) :: postZ →
       (preZ.all fun q => convOk q.1 q.2) = true →
       p.toSqlChecked ty = Except.error e →
       stmt.params.length = params.length →
       containsNul portal = false →
       containsNul stmt.name = false →
       params.length < 2 ^ 15 →
       encode_bind stmt params portal
         = PanicOr.value (Except.error (Error.toSql e preZ.length))) ∧
    (∀ stmt params portal preZ p ty postZ v,
       params.zip stmt.params = preZ ++ (p, ty) :: postZ →
       (preZ.all fun q => convOk q.1 q.2) = true →
       p.toSqlChecked ty = Except.ok v →
       fieldLenOk v = false →
       stmt.params.length = params.length →
       containsNul portal = false →
       containsNul stmt.name = false →
       params.length < 2 ^ 15 →
       encode_bind stmt params portal
         = PanicOr.value (Except.error Error.encode)) := by
  constructor
  · intro stmt params portal preZ p ty postZ e hzip hpre hconv hlen hnp hns
      hcnt
    unfold encode_bind
    rw [if_pos hlen]
    rw [if_neg (by rw [hnp, hns]; simp; omega)]
    have hbf : bindFields 0 (preZ ++ (p, ty) :: postZ)
        = Except.error (preZ.length, some e) := by
      apply bindFields_append_error preZ 0 _ _ _ hpre
      simp [bindFields, hconv]
    rw [hzip, hbf]
  · intro stmt params portal preZ p ty postZ v hzip hpre hconv hflen hlen
      hnp hns hcnt
    unfold encode_bind
    rw [if_pos hlen]
    rw [if_neg (by rw [hnp, hns]; simp; omega)]
    have hbf : bindFields 0 (preZ ++ (p, ty) :: postZ)
        = Except.error (preZ.length, none) := by
      apply bindFields_append_error preZ 0 _ _ _ hpre
      simp [bindFields, hconv, hflen]
    rw [hzip, hbf]

theorem encode_bind_error_taxonomy_witness :
    ([pOk, pErr].zip ((⟨("s"), [INT4, TEXT], []⟩ : Statement).params)
        = [(pOk, INT4)] ++ (pErr, TEXT) :: [] ∧
      ([(pOk, INT4)].all fun q => convOk q.1 q.2) = true ∧
      pErr.toSqlChecked TEXT = Except.error ("out of range") ∧
      encode_bind ⟨("s"), [INT4, TEXT], []⟩ [pOk, pErr] ("")
        = PanicOr.value (Except.error
            (Error.toSql ("out of range") 1))) ∧
    ([pOk, pBig].zip ((⟨("s"), [INT4, TEXT], []⟩ : Statement).params)
        = [(pOk, INT4)] ++ (pBig, TEXT) :: [] ∧
      pBig.toSqlChecked TEXT
        = Except.ok (some (List.replicate (2 ^ 31) 0)) ∧
      fieldLenOk (some (List.replicate (2 ^ 31) 0)) = false ∧
      encode_bind ⟨("s"), [INT4, TEXT], []⟩ [pOk, pBig] ("")
        = PanicOr.value (Except.error Error.encode)) := by
  have hlenrep : fieldLenOk (some (List.replicate (2 ^ 31) 0)) = false := by
    rw [show fieldLenOk (some (List.replicate (2 ^ 31) 0))
        = decide ((List.replicate (2 ^ 31) (0 : Nat)).length < 2 ^ 31)
        from rfl, List.length_replicate]
    decide
  refine ⟨⟨rfl, by decide, rfl, ?_⟩, ⟨rfl, rfl, hlenrep, ?_⟩⟩
  · exact encode_bind_error_taxonomy.1 ⟨("s"), [INT4, TEXT], []⟩
      [pOk, pErr] ("") [(pOk, INT4)] pErr TEXT [] ("out of range") rfl
      (by decide) rfl (by decide) (by decide) (by decide) (by decide)
  · exact encode_bind_error_taxonomy.2 ⟨("s"), [INT4, TEXT], []⟩
      [pOk, pBig] ("") [(pOk, INT4)] pBig TEXT []
      (some (List.replicate (2 ^ 31) 0)) rfl (by decide) rfl hlenrep
      (by decide) (by decide) (by decide) (by decide)

theorem read16_be16 (n : Nat) (h : n < 2 ^ 16) (rest : List Nat) :
    read16 (be16 n ++ rest) = some (n, rest) := by
  simp only [be16, List.cons_append, List.nil_append, read16,
    Option.some.injEq, Prod.mk.injEq, and_true]
  omega

theorem read32_be32 (n : Nat) (h : n < 2 ^ 32) (rest : List Nat) :
    read32 (be32 n ++ rest) = some (n, rest) := by
  simp only [be32, List.cons_append, List.nil_append, read32,
    Option.some.injEq, Prod.mk.injEq, and_true]
  omega

theorem readCopyField_encode (v : CopyValue) (hv : fieldLenOk v = true)
    (rest : List Nat) :
    readCopyField (encodeCopyField v ++ rest) = some (v, rest) := by
  cases v with
  | none =>
    simp only [encodeCopyField, readCopyField, List.cons_append,
      List.nil_append, read32]
    norm_num
  | some bs =>
    have hlen : bs.length < 2 ^ 31 := by
      unfold fieldLenOk at hv
      exact of_decide_eq_true hv
    simp only [encodeCopyField, List.append_assoc]
    unfold readCopyField
    rw [read32_be32 bs.length (by omega) (bs ++ rest)]
    dsimp only
    rw [if_neg (by omega)]
    rw [if_neg (by simp only [List.length_append, Nat.not_lt]; omega)]
    rw [List.take_left, List.drop_left]

theorem readCopyFields_encode (row : List CopyValue)
    (h : row.all fieldLenOk = true) (rest : List Nat) :
    readCopyFields row.length ((row.map encodeCopyField).flatten ++ rest)
      = some (row, rest) := by
  induction row with
  | nil => rfl
  | cons v vs ih =>
    rw [List.all_cons, Bool.and_eq_true] at h
    obtain ⟨h1, h2⟩ := h
    simp only [List.map_cons, List.flatten_cons, List.append_assoc,
      List.length_cons]
    unfold readCopyFields
    rw [readCopyField_encode v h1]
    dsimp only
    rw [ih h2]

theorem encodeCopyTuple_len (r : List CopyValue) :
    2 ≤ (encodeCopyTuple r).length := by
  simp [encodeCopyTuple, be16]

theorem joinTuples_len (rows : List (List CopyValue)) :
    2 * rows.length ≤ ((rows.map encodeCopyTuple).flatten).length := by
  induction rows with
  | nil => simp
  | cons r rs ih =>
    simp only [List.map_cons, List.flatten_cons, List.length_append,
      List.length_cons]
    have := encodeCopyTuple_len r
    omega

theorem readCopyTuples_encode (rows : List (List CopyValue))
    (schemaLen : Nat)
    (hlen : ∀ r ∈ rows, r.length = schemaLen)
    (hfld : ∀ r ∈ rows, r.all fieldLenOk = true)
    (hs : schemaLen < 2 ^ 16 - 1) :
    ∀ fuel, rows.length < fuel →
      readCopyTuples fuel schemaLen
          ((rows.map encodeCopyTuple).flatten ++ copyTrailer)
        = some rows := by
  induction rows with
  | nil =>
    intro fuel hfuel
    cases fuel with
    | zero => omega
    | succ f =>
      simp only [List.map_nil, List.flatten_nil, List.nil_append,
        copyTrailer]
      unfold readCopyTuples
      simp [read16]
  | cons r rs ih =>
    intro fuel hfuel
    cases fuel with
    | zero => omega
    | succ f =>
      have hr : r.length = schemaLen := hlen r (List.mem_cons_self r rs)
      simp only [List.map_cons, List.flatten_cons, List.append_assoc]
      unfold readCopyTuples
      rw [show encodeCopyTuple r ++ ((rs.map encodeCopyTuple).flatten
            ++ copyTrailer)
          = be16 r.length ++ ((r.map encodeCopyField).flatten
            ++ ((rs.map encodeCopyTuple).flatten ++ copyTrailer))
          from by simp [encodeCopyTuple]]
      rw [read16_be16 r.length (by omega) _]
      dsimp only
      rw [if_neg (by omega)]
      rw [if_pos hr]
      have hf := readCopyFields_encode r (hfld r (List.mem_cons_self r rs))
        ((rs.map encodeCopyTuple).flatten ++ copyTrailer)
      rw [hf]
      dsimp only
      rw [ih (fun x hx => hlen x (List.mem_cons_of_mem r hx))
        (fun x hx => hfld x (List.mem_cons_of_mem r hx)) f
        (by simp only [List.length_cons] at hfuel; omega)]

/-- C6: for every Copy Column Schema and every finite row sequence
matching it (NULL fields included, any number of rows, fields of any
length that fits the 4-byte prefix), encoding with the Binary Copy Writer
and decoding with the Binary Copy Reader reproduces exactly the original
rows in order; NULL round-trips as the absent value `none`, never as the
empty byte string `some []`. -/
theorem binary_copy_round_trip (schema : List PgType)
    (rows : List (List CopyValue))
    (hlen : ∀ r ∈ rows, r.length = schema.length)
    (hfld : ∀ r ∈ rows, r.all fieldLenOk = true)
    (hs : schema.length < 2 ^ 15) :
    ∃ bytes, binaryCopyWrite schema rows = PanicOr.value bytes ∧
      binaryCopyRead schema bytes = some rows := by
  have hall : rows.all (fun r => r.length = schema.length) = true := by
    rw [List.all_eq_true]
    intro r hr
    exact decide_eq_true (hlen r hr)
  refine ⟨copyHeader ++ (rows.map encodeCopyTuple).flatten ++ copyTrailer,
    ?_, ?_⟩
  · unfold binaryCopyWrite
    rw [if_pos hall]
  · unfold binaryCopyRead
    rw [List.append_assoc]
    rw [show (19 : Nat) = copyHeader.length from rfl]
    rw [List.take_left, List.drop_left, if_pos rfl]
    apply readCopyTuples_encode rows schema.length hlen hfld (by omega)
    have hjl := joinTuples_len rows
    simp only [List.length_append]
    have hh : copyHeader.length = 19 := rfl
    have ht : copyTrailer.length = 2 := rfl
    omega

theorem binary_copy_round_trip_witness :
    (∀ r ∈ [[some [0, 0, 0, 1], some [102, 111, 111, 98, 97, 114]],
        [some [0, 0, 0, 2], (none : CopyValue)]],
      r.length = ([INT4, TEXT] : List PgType).length) ∧
    (∀ r ∈ [[some [0, 0, 0, 1], some [102, 111, 111, 98, 97, 114]],
        [some [0, 0, 0, 2], (none : CopyValue)]],
      r.all fieldLenOk = true) ∧
    ∃ bytes,
      binaryCopyWrite [INT4, TEXT]
          [[some [0, 0, 0, 1], some [102, 111, 111, 98, 97, 114]],
           [some [0, 0, 0, 2], (none : CopyValue)]]
        = PanicOr.value bytes ∧
      binaryCopyRead [INT4, TEXT] bytes
        = some [[some [0, 0, 0, 1], some [102, 111, 111, 98, 97, 114]],
            [some [0, 0, 0, 2], (none : CopyValue)]] :=
  ⟨by decide, by decide,
   binary_copy_round_trip [INT4, TEXT]
     [[some [0, 0, 0, 1], some [102, 111, 111, 98, 97, 114]],
      [some [0, 0, 0, 2], (none : CopyValue)]]
     (by decide) (by decide) (by decide)⟩
